import Mathlib

/-!
Shallow embedding of `graph/examples/validate.rs`: the parse → identify →
validate → derive pipeline for subgraph schemas, and its batch-processing
semantics (bulk JSONL mode and single-file mode).

The orchestration code in `validate.rs` (`subgraph_id`, `parse`, `main`) is
translated directly.  The external collaborators it calls — the GraphQL
grammar parser, `InputSchema::parse`, `InputSchema::api_schema`,
`DeploymentHash::new` and the JSON record decoder — live outside the file:
they are abstracted as the fields of `Lib`, and where a concrete instance is
needed the instance is modelled from the spec (each such definition says so
in its doc comment).
-/

set_option autoImplicit false

namespace Validate

/-- Decidable equality for `Except`, used to evaluate the embedding on
concrete inputs. -/
instance exceptDecEq {ε α : Type} [DecidableEq ε] [DecidableEq α] :
    DecidableEq (Except ε α) := fun x y =>
  match x, y with
  | .ok a, .ok b => decidable_of_iff (a = b) (by simp)
  | .error a, .error b => decidable_of_iff (a = b) (by simp)
  | .ok _, .error _ => isFalse (by simp)
  | .error _, .ok _ => isFalse (by simp)

/-- Left and right curly brace characters, used when building schema texts. -/
def openBrace : Char := Char.ofNat 123

/-- Right curly brace character. -/
def closeBrace : Char := Char.ofNat 125

/-- Value of a directive argument in the parsed schema AST.  Mirrors
`graphql_parser`'s `s::Value` restricted to what `subgraph_id` inspects:
the code only distinguishes `s::Value::String(s)` from every other variant. -/
inductive GValue
  | str (s : String)
  | other
  deriving DecidableEq

/-- A directive attached to a type definition: a name and named arguments,
mirroring `s::Directive` (`name`, `arguments: Vec<(String, Value)>`). -/
structure GDirective where
  name : String
  arguments : List (String × GValue)
  deriving DecidableEq

/-- A definition in the parsed document.  `subgraph_id` only cares whether a
definition is an object type (with its directives); every other definition
kind of `s::Definition` is collapsed into `otherDef`. -/
inductive GDefinition
  | objectType (name : String) (directives : List GDirective)
  | otherDef
  deriving DecidableEq

/-- The parsed schema document, mirroring `s::Document` (`definitions`). -/
structure GDocument where
  definitions : List GDefinition
  deriving DecidableEq

/-- Modelled from the spec: `DocumentExt::get_object_type_definitions` (from
the `graph` crate, outside this file's source) returns the object-type
definitions of the document in declaration order. -/
def GDocument.getObjectTypeDefinitions (d : GDocument) : List GDefinition :=
  d.definitions.filter fun x =>
    match x with
    | .objectType _ _ => true
    | .otherDef => false

/-- Modelled from the spec: `DirectiveFinder::find_directive` (from the
`graph` crate) returns the first directive of the definition with the given
name. -/
def GDefinition.findDirective : GDefinition → String → Option GDirective
  | .objectType _ dirs, n => dirs.find? fun d => d.name = n
  | .otherDef, _ => none

/-- Modelled from the spec: `DirectiveExt::argument` (from the `graph` crate)
returns the value of the first argument of the directive with the given
name. -/
def GDirective.argument (d : GDirective) (n : String) : Option GValue :=
  (d.arguments.find? fun a => a.1 = n).map (·.2)

/-- The identifier-string computation inside `subgraph_id`
(`validate.rs:65-74`): first object type definition, its `subgraphId`
directive, that directive's `id` argument, kept only when it is a string
value, with the sentinel `"unknown"` as the fallback. -/
def extractId (schema : GDocument) : String :=
  ((((schema.getObjectTypeDefinitions.head?).bind
      fun objType => objType.findDirective "subgraphId").bind
      fun dir => dir.argument "id").bind
      fun arg =>
        match arg with
        | .str s => some s
        | .other => none).getD "unknown"

/-- The external collaborators of the pipeline, abstracted: the GraphQL
grammar parser (`graphql_parser::parse_schema`), the deployment-hash format
check performed by `DeploymentHash::new` (per the spec a valid identifier
string is used as-is as the `DeploymentHash`, so only the validity predicate
is abstract), `InputSchema::parse` at the run's fixed spec version
(`SPEC_VERSION_1_1_0`), and `InputSchema::api_schema`.  `IS` is the type of
validated input schemas. -/
structure Lib (IS : Type) where
  parseSchema : String → Except String GDocument
  isValidHash : String → Bool
  inputSchemaParse : String → String → Except String IS
  apiSchema : IS → Except String Unit

/-- Trace of the library calls a pipeline run makes, in order.  `hashCall id`
records `DeploymentHash::new(id)`, `inputCall id` records
`InputSchema::parse(&SPEC_VERSION_1_1_0, raw, id)`, `apiCall` records
`input_schema.api_schema()`. -/
inductive Stage
  | parseCall
  | hashCall (id : String)
  | inputCall (id : String)
  | apiCall
  deriving DecidableEq

/-- Result of one `parse` invocation (`validate.rs:103-126`): either the
function returned normally after printing `lines` to stdout, or the process
aborted (`ensure`'s `exit(1)`, or a panic from `.expect`) with the given
message. -/
inductive StepResult
  | report (lines : List String)
  | abort (msg : String)
  deriving DecidableEq

/-- The stdout report lines of a step result (none when the run aborted). -/
def StepResult.lines : StepResult → List String
  | .report ls => ls
  | .abort _ => []

/-- Shallow embedding of `fn parse(raw, name, api)` (`validate.rs:103-126`),
also returning the trace of library calls made.  `ensure` on a parse error
prints `{msg}:\n    {err}` and exits; `subgraph_id` panics via `.expect` when
the extracted identifier fails the deployment-hash format check; an
`InputSchema` failure prints an `InputSchema:` line and returns; an
`ApiSchema` failure (only when `api` is set, only after `InputSchema`
success) prints an `ApiSchema:` line and returns; otherwise the `OK` line is
printed. -/
def parse {IS : Type} (lib : Lib IS) (raw name : String) (api : Bool) :
    List Stage × StepResult :=
  match lib.parseSchema raw with
  | .error e =>
      ([.parseCall], .abort ("Failed to parse schema sgd" ++ name ++ ":\n    " ++ e))
  | .ok schema =>
      let id := extractId schema
      if lib.isValidHash id then
        match lib.inputSchemaParse raw id with
        | .error e =>
            ([.parseCall, .hashCall id, .inputCall id],
             .report ["InputSchema: " ++ name ++ "[" ++ id ++ "]: " ++ e])
        | .ok isch =>
            if api then
              match lib.apiSchema isch with
              | .error e =>
                  ([.parseCall, .hashCall id, .inputCall id, .apiCall],
                   .report ["ApiSchema: " ++ name ++ "[" ++ id ++ "]: " ++ e])
              | .ok _ =>
                  ([.parseCall, .hashCall id, .inputCall id, .apiCall],
                   .report ["Schema " ++ name ++ "[" ++ id ++ "]: OK"])
            else
              ([.parseCall, .hashCall id, .inputCall id],
               .report ["Schema " ++ name ++ "[" ++ id ++ "]: OK"])
      else
        ([.parseCall, .hashCall id], .abort "subgraph id is not a valid deployment hash")

/-- One bulk record (`struct Entry`, `validate.rs:78-82`): an integer `id`
and the raw schema text. -/
structure Entry where
  id : Int
  schema : String
  deriving DecidableEq

/-- The un-escaping `line.replace("\\\\", "\\")` of `validate.rs:140` on the
character list: each two-character backslash-backslash sequence is replaced,
left to right and without overlap, by a single backslash. -/
def unescapeChars : List Char → List Char
  | [] => []
  | [c] => [c]
  | c1 :: c2 :: rest =>
      if c1 = '\\' ∧ c2 = '\\' then '\\' :: unescapeChars rest
      else c1 :: unescapeChars (c2 :: rest)

/-- The un-escaping `line.replace("\\\\", "\\")` of `validate.rs:140`. -/
def unescapeLine (s : String) : String := String.mk (unescapeChars s.data)

/-- Skip space characters. -/
def skipWs : List Char → List Char
  | c :: rest => if c = ' ' then skipWs rest else c :: rest
  | [] => []

/-- Match an expected sequence of characters, returning the remainder. -/
def expectChars : List Char → List Char → Option (List Char)
  | [], s => some s
  | p :: ps, c :: cs => if p = c then expectChars ps cs else none
  | _ :: _, [] => none

/-- Take a maximal run of decimal digits from the front. -/
def takeDigits : List Char → List Char × List Char
  | c :: rest =>
      if c.isDigit then
        let r := takeDigits rest
        (c :: r.1, r.2)
      else ([], c :: rest)
  | [] => ([], [])

/-- Value of a list of decimal digits. -/
def digitsToNat (ds : List Char) : Nat :=
  ds.foldl (fun a c => 10 * a + (c.toNat - 48)) 0

/-- Parse a JSON integer token (an optional minus sign and digits). -/
def parseIntTok (s : List Char) : Option (Int × List Char) :=
  match s with
  | '-' :: rest =>
      match takeDigits rest with
      | ([], _) => none
      | (ds, r) => some (-(digitsToNat ds : Int), r)
  | _ =>
      match takeDigits s with
      | ([], _) => none
      | (ds, r) => some ((digitsToNat ds : Int), r)

/-- A JSON string escape character and the character it denotes. -/
def escChar : Char → Option Char
  | '"' => some '"'
  | '\\' => some '\\'
  | '/' => some '/'
  | 'b' => some (Char.ofNat 8)
  | 'f' => some (Char.ofNat 12)
  | 'n' => some '\n'
  | 'r' => some (Char.ofNat 13)
  | 't' => some '\t'
  | _ => none

/-- Decode the body of a JSON string (input starts after the opening quote);
returns the decoded characters and the remainder after the closing quote.
Backslash escapes are decoded via `escChar`; an invalid escape or a missing
closing quote is a decode error. -/
def decodeString : List Char → Option (List Char × List Char)
  | [] => none
  | '"' :: rest => some ([], rest)
  | '\\' :: [] => none
  | '\\' :: e :: rest =>
      (escChar e).bind fun c =>
        (decodeString rest).map fun sr => (c :: sr.1, sr.2)
  | c :: rest =>
      (decodeString rest).map fun sr => (c :: sr.1, sr.2)

/-- Modelled from the spec: the bulk record decoder (`serde_json` in the
source, an external collaborator).  A record line is a JSON object with
exactly two fields, an integer `id` and a string `schema` (the model fixes
the field order `id`, `schema` and decodes the standard JSON string
escapes). -/
def parseEntryChars (s : List Char) : Option Entry := do
  let s ← expectChars [openBrace] (skipWs s)
  let s ← expectChars ['"', 'i', 'd', '"'] (skipWs s)
  let s ← expectChars [':'] (skipWs s)
  let (idv, s) ← parseIntTok (skipWs s)
  let s ← expectChars [','] (skipWs s)
  let s ← expectChars ['"', 's', 'c', 'h', 'e', 'm', 'a', '"'] (skipWs s)
  let s ← expectChars [':'] (skipWs s)
  let s ← expectChars ['"'] (skipWs s)
  let (sch, s) ← decodeString s
  let s ← expectChars [closeBrace] (skipWs s)
  match skipWs s with
  | [] => some ⟨idv, String.mk sch⟩
  | _ => none

/-- Modelled from the spec: decode one bulk record line. -/
def parseEntry (s : String) : Option Entry :=
  parseEntryChars s.data

/-- Process one bulk line (the body of the inner loop of `main`,
`validate.rs:140-145`): un-escape the line, decode it as an `Entry` (a
decode failure is the fatal `expect("line is valid json")` panic), then run
the pipeline on the schema text under the label `sgd{id}`.  `Except.error`
is a fatal abort of the whole run; `Except.ok` carries the stdout lines. -/
def processLine {IS : Type} (lib : Lib IS) (api : Bool) (line : String) :
    Except String (List String) :=
  match parseEntry (unescapeLine line) with
  | none => .error "line is valid json"
  | some entry =>
      match (parse lib entry.schema ("sgd" ++ toString entry.id) api).2 with
      | .report ls => .ok ls
      | .abort m => .error m

/-- Run the bulk loop over the lines of one file (`validate.rs:139-146`).
A line element `Except.error _` is a line read failure (the fatal
`expect("invalid line")`).  Returns the stdout lines produced and, when the
run aborted, the abort message; lines after an abort are not processed. -/
def runLines {IS : Type} (lib : Lib IS) (api : Bool) :
    List (Except String String) → List String × Option String
  | [] => ([], none)
  | l :: rest =>
      match l with
      | .error _ => ([], some "invalid line")
      | .ok line =>
          match processLine lib api line with
          | .error m => ([], some m)
          | .ok out =>
              let r := runLines lib api rest
              (out ++ r.1, r.2)

/-- Run bulk mode on one file (`validate.rs:135-146`): print the header,
open the file (`Except.error` contents is the fatal `expect("file exists")`),
then process its lines. -/
def runBulkFile {IS : Type} (lib : Lib IS) (api : Bool) (label : String)
    (contents : Except String (List (Except String String))) :
    List String × Option String :=
  match contents with
  | .error _ => (["Validating schemas from " ++ label], some "file exists")
  | .ok lines =>
      let r := runLines lib api lines
      (("Validating schemas from " ++ label) :: r.1, r.2)

/-- Run bulk mode on the whole file list (`validate.rs:134-147`); an abort in
one file stops the run, leaving later files unprocessed. -/
def runBulk {IS : Type} (lib : Lib IS) (api : Bool) :
    List (String × Except String (List (Except String String))) →
    List String × Option String
  | [] => ([], none)
  | (label, contents) :: rest =>
      match runBulkFile lib api label contents with
      | (out, some m) => (out, some m)
      | (out, none) =>
          let r := runBulk lib api rest
          (out ++ r.1, r.2)

/-- Run single mode on one file (`validate.rs:149-152`): print the header,
read the file wholesale (`Except.error` contents is the fatal
`expect("file exists")`), then run the pipeline with the path itself as the
label. -/
def runSingleFile {IS : Type} (lib : Lib IS) (api : Bool) (path : String)
    (contents : Except String String) : List String × Option String :=
  match contents with
  | .error _ => (["Validating schema from " ++ path], some "file exists")
  | .ok raw =>
      match (parse lib raw path api).2 with
      | .report ls => (("Validating schema from " ++ path) :: ls, none)
      | .abort m => (["Validating schema from " ++ path], some m)

/-- Run single mode on the whole file list (`validate.rs:148-154`); an abort
stops the run, leaving later files unprocessed. -/
def runSingle {IS : Type} (lib : Lib IS) (api : Bool) :
    List (String × Except String String) → List String × Option String
  | [] => ([], none)
  | (path, contents) :: rest =>
      match runSingleFile lib api path contents with
      | (out, some m) => (out, some m)
      | (out, none) =>
          let r := runSingle lib api rest
          (out ++ r.1, r.2)

/-- Brace-balance check with a depth counter: a closing brace at depth zero,
or a nonzero depth at the end of the text, is a grammar violation. -/
def bracesBalanced : List Char → Nat → Bool
  | [], d => d == 0
  | c :: rest, d =>
      if c = openBrace then bracesBalanced rest (d + 1)
      else if c = closeBrace then
        match d with
        | 0 => false
        | d' + 1 => bracesBalanced rest d'
      else bracesBalanced rest d

/-- No two consecutive backslash characters occur in the text. -/
def noDoubleBackslash : List Char → Bool
  | '\\' :: '\\' :: _ => false
  | _ :: rest => noDoubleBackslash rest
  | [] => true

/-- Modelled from the spec: the schema grammar check (`graphql_parser`, an
external collaborator).  The model accepts a text when its braces are
balanced and it contains no doubled-backslash token (capturing the spec's
unbalanced-brace and invalid-token failure modes); the AST production is
beyond the model, so an accepted text yields a document with no definitions,
which the identifier extractor treats as the no-identifier case. -/
def modelParseSchema (raw : String) : Except String GDocument :=
  if bracesBalanced raw.data 0 && noDoubleBackslash raw.data then .ok ⟨[]⟩
  else .error "syntax error"

/-- Modelled from the spec: a concrete instance of the external
collaborators.  The deployment-hash format check accepts exactly the
non-empty strings (the spec requires the identifier to be non-empty and to
satisfy an externally defined format); `InputSchema::parse` and
`api_schema` always succeed. -/
def modelLib : Lib Unit where
  parseSchema := modelParseSchema
  isValidHash := fun s => !s.isEmpty
  inputSchemaParse := fun _ _ => .ok ()
  apiSchema := fun _ => .ok ()

/-- A document whose first object type declares an empty-string `subgraphId`,
which fails the deployment-hash format check. -/
def emptyIdDoc : GDocument :=
  ⟨[.objectType "Thing" [⟨"subgraphId", [("id", GValue.str "")]⟩]]⟩

/-- The model collaborators, with the grammar parser returning `emptyIdDoc`
for every text. -/
def emptyIdLib : Lib Unit :=
  { modelLib with parseSchema := fun _ => .ok emptyIdDoc }

/-- A document whose first object type declares the `subgraphId` `"abc123"`
(the spec's Scenario A). -/
def scenarioADoc : GDocument :=
  ⟨[.objectType "Thing" [⟨"subgraphId", [("id", GValue.str "abc123")]⟩]]⟩

/-- The model collaborators, with the grammar parser returning
`scenarioADoc` for every text. -/
def scenarioALib : Lib Unit :=
  { modelLib with parseSchema := fun _ => .ok scenarioADoc }

/-- The model collaborators, with API-schema derivation failing. -/
def apiFailLib : Lib Unit :=
  { modelLib with apiSchema := fun _ => .error "naming collision" }

/-- The model collaborators, with `InputSchema` validation failing. -/
def inputFailLib : Lib Unit :=
  { modelLib with inputSchemaParse := fun _ _ => .error "bad type" }

/-- A bulk record line whose `schema` field holds a double-escaped backslash
(four backslash characters on the raw line): the line reads
`\x7b"id":3,"schema":"a\\\\b"\x7d`. -/
def doubleEscapedLine : String := "\x7b\"id\":3,\"schema\":\"a\\\\\\\\b\"\x7d"

/-- A bulk record line whose JSON encoding legitimately contains one
double-backslash escape (two backslash characters on the raw line, denoting
one backslash in the decoded field): the line reads
`\x7b"id":1,"schema":"a\\b"\x7d`. -/
def legitimateEscapeLine : String := "\x7b\"id\":1,\"schema\":\"a\\\\b\"\x7d"

/-- A bulk record line (id 1) whose schema text has an unbalanced brace. -/
def unbalancedLine : String := "\x7b\"id\":1,\"schema\":\"type T \x7b\"\x7d"

/-- A bulk record line (id 2) whose schema text is well-formed. -/
def balancedLine : String := "\x7b\"id\":2,\"schema\":\"type T \x7b \x7d\"\x7d"

/-- A bulk record line (id 1) carrying a well-formed schema text. -/
def wellFormedRecord : String := "\x7b\"id\":1,\"schema\":\"type T \x7b \x7d\"\x7d"

/-- A bulk line that is not a well-formed record: its schema field is not
valid JSON text. -/
def malformedRecord : String := "\x7b\"id\":2,\"schema\":oops\x7d"

/-- C1 counterexample: a bulk run whose first record's schema text has an
unbalanced brace.  The run aborts with the parse-error message and the
second record of the batch is never processed (its outcome does not appear
in the output), so the parse failure of one schema is fatal to the run,
contrary to the claim that the pipeline reports the error and continues. -/
theorem c1_counterexample :
    runBulk modelLib false
        [("db.json", Except.ok [Except.ok unbalancedLine, Except.ok balancedLine])] =
      (["Validating schemas from db.json"],
       some "Failed to parse schema sgdsgd1:\n    syntax error")
    ∧ (runBulk modelLib false
        [("db.json", Except.ok [Except.ok unbalancedLine, Except.ok balancedLine])]).2
        ≠ none := by
  decide

/-- C1 (amended): for every schema whose raw text does not conform to the
grammar, the pipeline reports the parse error and aborts the entire run
(`ensure` exits the process) without attempting identifier extraction or
validation for that schema — the call trace is only the grammar-parse call —
and the remaining schemas of the batch are not processed: a parse failure is
fatal to the run, in both bulk and single mode. -/
theorem c1_amended {IS : Type} (lib : Lib IS) (raw name : String) (api : Bool)
    (e : String) (h : lib.parseSchema raw = .error e) :
    parse lib raw name api =
      ([Stage.parseCall],
       .abort ("Failed to parse schema sgd" ++ name ++ ":\n    " ++ e))
    ∧ (∀ (line : String) (entry : Entry) (rest : List (Except String String)),
        parseEntry (unescapeLine line) = some entry → entry.schema = raw →
        runLines lib api (Except.ok line :: rest) =
          ([], some ("Failed to parse schema sgd" ++ ("sgd" ++ toString entry.id)
                      ++ ":\n    " ++ e)))
    ∧ (∀ (path : String) (rest : List (String × Except String String)),
        runSingle lib api ((path, Except.ok raw) :: rest) =
          (["Validating schema from " ++ path],
           some ("Failed to parse schema sgd" ++ path ++ ":\n    " ++ e))) := by
  refine ⟨by simp [parse, h], ?_, ?_⟩
  · intro line entry rest hp hs
    simp [runLines, processLine, hp, parse, hs, h]
  · intro path rest
    simp [runSingle, runSingleFile, parse, h]

/-- C1 amended witness: the amended behavior at a concrete unbalanced-brace
schema in single mode with a second file pending. -/
theorem c1_amended_witness :
    parse modelLib "type T \x7b" "a.graphql" false =
      ([Stage.parseCall],
       .abort ("Failed to parse schema sgd" ++ "a.graphql" ++ ":\n    " ++ "syntax error"))
    ∧ runSingle modelLib false
        [("a.graphql", Except.ok "type T \x7b"), ("b.graphql", Except.ok "")] =
      (["Validating schema from " ++ "a.graphql"],
       some ("Failed to parse schema sgd" ++ "a.graphql" ++ ":\n    " ++ "syntax error")) := by
  have h := c1_amended modelLib "type T \x7b" "a.graphql" false "syntax error" (by decide)
  exact ⟨h.1, h.2.2 "a.graphql" [("b.graphql", Except.ok "")]⟩

/-- C2 counterexample: a schema whose declared identifier is the empty
string, which fails the deployment-hash format check.  The run aborts with
the panic message and the second schema is never processed, so the
identifier-format failure is not reported as a per-schema outcome after
which processing continues, contrary to the claim. -/
theorem c2_counterexample :
    runSingle emptyIdLib false
        [("a.graphql", Except.ok "x"), ("b.graphql", Except.ok "y")] =
      (["Validating schema from a.graphql"],
       some "subgraph id is not a valid deployment hash")
    ∧ (runSingle emptyIdLib false
        [("a.graphql", Except.ok "x"), ("b.graphql", Except.ok "y")]).2 ≠ none := by
  decide

/-- C2 (amended): for every schema whose extracted (or sentinel) identifier
string fails the deployment-hash format check, the run panics with
`subgraph id is not a valid deployment hash` and aborts immediately —
`InputSchema` validation is not reached for that schema and the remaining
schemas are not processed.  The failure is distinct from the
no-identifier-declared case: a schema with no declared identifier proceeds
into validation under the sentinel `unknown` (last conjunct). -/
theorem c2_amended {IS : Type} (lib : Lib IS) (raw name : String) (api : Bool)
    (schema : GDocument)
    (h1 : lib.parseSchema raw = .ok schema)
    (h2 : lib.isValidHash (extractId schema) = false) :
    parse lib raw name api =
      ([Stage.parseCall, Stage.hashCall (extractId schema)],
       .abort "subgraph id is not a valid deployment hash")
    ∧ (∀ (path : String) (rest : List (String × Except String String)),
        runSingle lib api ((path, Except.ok raw) :: rest) =
          (["Validating schema from " ++ path],
           some "subgraph id is not a valid deployment hash"))
    ∧ (∀ (raw' name' : String) (api' : Bool) (schema' : GDocument),
        lib.parseSchema raw' = .ok schema' → extractId schema' = "unknown" →
        lib.isValidHash "unknown" = true →
        Stage.inputCall "unknown" ∈ (parse lib raw' name' api').1) := by
  refine ⟨by simp [parse, h1, h2], ?_, ?_⟩
  · intro path rest
    simp [runSingle, runSingleFile, parse, h1, h2]
  · intro raw' name' api' schema' h1' hex hv
    simp only [parse, h1', hex, hv, if_true]
    cases lib.inputSchemaParse raw' "unknown" with
    | error e => simp
    | ok isch =>
        cases api' with
        | false => simp
        | true =>
            cases hA : lib.apiSchema isch with
            | error e => simp [hA]
            | ok u => simp [hA]

/-- Helper: a bulk block of cleanly processed lines followed by a tail whose
processing aborts reports the outcomes of the clean lines in order and then
the abort; nothing after the aborting element is examined. -/
theorem runLines_append_abort {IS : Type} (lib : Lib IS) (api : Bool)
    (good : List String) (tail : List (Except String String)) (m : String)
    (h : ∀ l ∈ good, (processLine lib api l).isOk = true)
    (ht : runLines lib api tail = ([], some m)) :
    runLines lib api (good.map Except.ok ++ tail) =
      ((good.map fun l => (processLine lib api l).toOption.getD []).flatten,
       some m) := by
  induction good with
  | nil => simpa using ht
  | cons l ls ih =>
      have hl := h l (by simp)
      have hrest := ih fun x hx => h x (by simp [hx])
      cases hpl : processLine lib api l with
      | error e => rw [hpl] at hl; simp [Except.isOk, Except.toBool] at hl
      | ok out => simp [runLines, hpl, hrest, Except.toOption]

/-- C3: in bulk mode a line that is not a parsable record, or an unreadable
line, aborts the entire run: the outcomes of the lines processed before it
are reported, the aborting line produces the fatal message, and no later
line — and no later file — is processed. -/
theorem c3_malformed_record_fatal {IS : Type} (lib : Lib IS) (api : Bool)
    (label : String) (good : List String)
    (hgood : ∀ l ∈ good, (processLine lib api l).isOk = true) :
    (∀ (err : String) (rest : List (Except String String))
        (moreFiles : List (String × Except String (List (Except String String)))),
        runBulk lib api
            ((label, Except.ok (good.map Except.ok ++ Except.error err :: rest))
              :: moreFiles) =
          (("Validating schemas from " ++ label)
             :: (good.map fun l => (processLine lib api l).toOption.getD []).flatten,
           some "invalid line"))
    ∧ (∀ (bad : String) (rest : List (Except String String))
        (moreFiles : List (String × Except String (List (Except String String)))),
        parseEntry (unescapeLine bad) = none →
        runBulk lib api
            ((label, Except.ok (good.map Except.ok ++ Except.ok bad :: rest))
              :: moreFiles) =
          (("Validating schemas from " ++ label)
             :: (good.map fun l => (processLine lib api l).toOption.getD []).flatten,
           some "line is valid json")) := by
  constructor
  · intro err rest moreFiles
    have h := runLines_append_abort lib api good (Except.error err :: rest)
      "invalid line" hgood (by simp [runLines])
    simp [runBulk, runBulkFile, h]
  · intro bad rest moreFiles hbad
    have h := runLines_append_abort lib api good (Except.ok bad :: rest)
      "line is valid json" hgood (by simp [runLines, processLine, hbad])
    simp [runBulk, runBulkFile, h]

/-- C3 witness: the spec's Scenario C — a bulk file with two records,
identifiers 1 and 2, the second one malformed; the run reports the first
record's outcome and then aborts, and a pending second file is never
touched. -/
theorem c3_witness :
    runBulk modelLib false
        [("db.json",
          Except.ok [Except.ok wellFormedRecord, Except.ok malformedRecord]),
         ("db2.json", Except.ok [])] =
      (["Validating schemas from db.json", "Schema sgd1[unknown]: OK"],
       some "line is valid json") := by
  have h := (c3_malformed_record_fatal modelLib false "db.json" [wellFormedRecord]
      (by decide)).2 malformedRecord [] [("db2.json", Except.ok [])] (by decide)
  exact h.trans (by decide)

/-- Helper: un-escaping collapses a doubled backslash after a
backslash-free block to a single backslash and carries on. -/
theorem unescape_collapses_pair (a b : List Char) (h : '\\' ∉ a) :
    unescapeChars (a ++ '\\' :: '\\' :: b) = a ++ '\\' :: unescapeChars b := by
  induction a with
  | nil => simp [unescapeChars]
  | cons c a ih =>
      have hc : ¬(c = '\\') := fun hcc => h (by simp [hcc])
      have ha : '\\' ∉ a := fun hm => h (by simp [hm])
      cases a with
      | nil => simp [unescapeChars, hc]
      | cons d a' =>
          simp only [List.cons_append, unescapeChars]
          rw [if_neg (by simp [hc])]
          simpa using ih ha

/-- C4: in bulk mode each literal two-character backslash-backslash sequence
is collapsed to a single backslash before the schema text is parsed (first
conjunct, on the un-escaping of `validate.rs:140`); the record
`doubleEscapedLine`, whose schema field is syntactically valid only after
this un-escaping, is validated successfully by the pipeline (second
conjunct), while decoding the same record without the un-escaping yields a
schema text that fails to parse (third conjunct). -/
theorem c4_unescape_before_parse :
    (∀ (a b : List Char), '\\' ∉ a →
        unescapeChars (a ++ '\\' :: '\\' :: b) = a ++ '\\' :: unescapeChars b)
    ∧ runLines modelLib false [Except.ok doubleEscapedLine] =
        (["Schema sgd3[unknown]: OK"], none)
    ∧ (parseEntry doubleEscapedLine).map (fun e => modelParseSchema e.schema) =
        some (.error "syntax error") := by
  exact ⟨unescape_collapses_pair, by decide, by decide⟩

/-- C4 witness: the un-escaping collapse evaluated at a concrete
backslash-free block, together with the successful bulk validation of the
double-escaped record. -/
theorem c4_witness :
    unescapeChars (['a'] ++ '\\' :: '\\' :: ['b']) = ['a'] ++ '\\' :: unescapeChars ['b']
    ∧ runLines modelLib false [Except.ok doubleEscapedLine] =
        (["Schema sgd3[unknown]: OK"], none) := by
  exact ⟨c4_unescape_before_parse.1 ['a'] ['b'] (by decide), c4_unescape_before_parse.2.1⟩

/-- C2 amended witness: the amended behavior at a concrete schema declaring
the empty-string identifier, with a second file pending. -/
theorem c2_amended_witness :
    parse emptyIdLib "x" "a.graphql" false =
      ([Stage.parseCall, Stage.hashCall (extractId emptyIdDoc)],
       .abort "subgraph id is not a valid deployment hash")
    ∧ runSingle emptyIdLib false
        [("a.graphql", Except.ok "x"), ("b.graphql", Except.ok "y")] =
      (["Validating schema from " ++ "a.graphql"],
       some "subgraph id is not a valid deployment hash") := by
  have h := c2_amended emptyIdLib "x" "a.graphql" false emptyIdDoc (by decide) (by decide)
  exact ⟨h.1, h.2.1 "a.graphql" [("b.graphql", Except.ok "y")]⟩

/-- C5: for every parsed schema document in which the first object-type
definition is absent, or lacks a `subgraphId` directive, or whose directive
lacks an `id` argument, or whose argument value is not a string, identifier
extraction returns the sentinel `unknown` rather than failing; when the
sentinel passes the format check, the pipeline proceeds into validation
using the sentinel (the deployment-hash and `InputSchema` calls are both
made with `unknown`). -/
theorem c5_sentinel_fallback (schema : GDocument)
    (h : schema.getObjectTypeDefinitions.head? = none
      ∨ (∃ obj, schema.getObjectTypeDefinitions.head? = some obj
          ∧ obj.findDirective "subgraphId" = none)
      ∨ (∃ obj dir, schema.getObjectTypeDefinitions.head? = some obj
          ∧ obj.findDirective "subgraphId" = some dir
          ∧ dir.argument "id" = none)
      ∨ (∃ obj dir v, schema.getObjectTypeDefinitions.head? = some obj
          ∧ obj.findDirective "subgraphId" = some dir
          ∧ dir.argument "id" = some v
          ∧ ∀ s, v ≠ GValue.str s)) :
    extractId schema = "unknown"
    ∧ ∀ {IS : Type} (lib : Lib IS) (raw name : String) (api : Bool),
        lib.parseSchema raw = Except.ok schema →
        lib.isValidHash "unknown" = true →
        Stage.hashCall "unknown" ∈ (parse lib raw name api).1
        ∧ Stage.inputCall "unknown" ∈ (parse lib raw name api).1 := by
  have hex : extractId schema = "unknown" := by
    rcases h with h | ⟨obj, h1, h2⟩ | ⟨obj, dir, h1, h2, h3⟩ |
      ⟨obj, dir, v, h1, h2, h3, h4⟩
    · simp [extractId, h]
    · simp [extractId, h1, h2]
    · simp [extractId, h1, h2, h3]
    · cases v with
      | str s => exact absurd rfl (h4 s)
      | other => simp [extractId, h1, h2, h3]
  refine ⟨hex, ?_⟩
  intro IS lib raw name api h1 hv
  simp only [parse, h1, hex, hv, if_true]
  cases hI : lib.inputSchemaParse raw "unknown" with
  | error e => simp [hI]
  | ok isch =>
      cases api with
      | false => simp [hI]
      | true =>
          cases hA : lib.apiSchema isch with
          | error e => simp [hI, hA]
          | ok u => simp [hI, hA]

/-- C5 witness: a document with no object-type definition; extraction yields
the sentinel and the pipeline under the model collaborators format-checks
and validates with it. -/
theorem c5_witness :
    extractId ⟨[]⟩ = "unknown"
    ∧ Stage.hashCall "unknown" ∈ (parse modelLib "" "f" false).1
    ∧ Stage.inputCall "unknown" ∈ (parse modelLib "" "f" false).1 := by
  have h := c5_sentinel_fallback ⟨[]⟩ (Or.inl (by decide))
  exact ⟨h.1, h.2 modelLib "" "f" false (by decide) (by decide)⟩

/-- C6: for every parsed schema document whose first object-type definition
carries a `subgraphId` directive with a string `id` argument, the extracted
identifier equals that argument string exactly; when the string passes the
format check the pipeline's deployment-hash and `InputSchema` calls are both
made with exactly that string. -/
theorem c6_extracted_equals_argument (schema : GDocument) (obj : GDefinition)
    (dir : GDirective) (s : String)
    (h1 : schema.getObjectTypeDefinitions.head? = some obj)
    (h2 : obj.findDirective "subgraphId" = some dir)
    (h3 : dir.argument "id" = some (GValue.str s)) :
    extractId schema = s
    ∧ ∀ {IS : Type} (lib : Lib IS) (raw name : String) (api : Bool),
        lib.parseSchema raw = Except.ok schema →
        lib.isValidHash s = true →
        Stage.hashCall s ∈ (parse lib raw name api).1
        ∧ Stage.inputCall s ∈ (parse lib raw name api).1 := by
  have hex : extractId schema = s := by simp [extractId, h1, h2, h3]
  refine ⟨hex, ?_⟩
  intro IS lib raw name api hp hv
  simp only [parse, hp, hex, hv, if_true]
  cases hI : lib.inputSchemaParse raw s with
  | error e => simp [hI]
  | ok isch =>
      cases api with
      | false => simp [hI]
      | true =>
          cases hA : lib.apiSchema isch with
          | error e => simp [hI, hA]
          | ok u => simp [hI, hA]

/-- C6 witness: the spec's Scenario A — a document declaring the identifier
`abc123`; extraction returns `abc123` and the pipeline validates under that
identifier. -/
theorem c6_witness :
    extractId scenarioADoc = "abc123"
    ∧ Stage.hashCall "abc123" ∈ (parse scenarioALib "x" "f" false).1
    ∧ Stage.inputCall "abc123" ∈ (parse scenarioALib "x" "f" false).1 := by
  have h := c6_extracted_equals_argument scenarioADoc
    (GDefinition.objectType "Thing" [⟨"subgraphId", [("id", GValue.str "abc123")]⟩])
    ⟨"subgraphId", [("id", GValue.str "abc123")]⟩ "abc123"
    (by decide) (by decide) (by decide)
  exact ⟨h.1, h.2 scenarioALib "x" "f" false (by decide) (by decide)⟩

/-- C7: API-schema derivation is attempted only when requested (first
conjunct) and only strictly after `InputSchema` validation has succeeded
(second conjunct: an `apiCall` in the trace forces `api = true`, a
successful `InputSchema` call, and the trace order parse → hash → input →
api); a derivation failure is reported as an `ApiSchema` failure for the
same label and identifier (third conjunct); an `InputSchema` failure is
itself reported and the run continues with the next schema (fourth
conjunct). -/
theorem c7_api_after_input {IS : Type} (lib : Lib IS) (raw name : String) :
    Stage.apiCall ∉ (parse lib raw name false).1
    ∧ (∀ api, Stage.apiCall ∈ (parse lib raw name api).1 →
        api = true
        ∧ ∃ id isch, lib.inputSchemaParse raw id = Except.ok isch
            ∧ (parse lib raw name api).1 =
                [Stage.parseCall, Stage.hashCall id, Stage.inputCall id,
                 Stage.apiCall])
    ∧ (∀ (schema : GDocument) (isch : IS) (e : String),
        lib.parseSchema raw = Except.ok schema →
        lib.isValidHash (extractId schema) = true →
        lib.inputSchemaParse raw (extractId schema) = Except.ok isch →
        lib.apiSchema isch = Except.error e →
        (parse lib raw name true).2 =
          .report ["ApiSchema: " ++ name ++ "[" ++ extractId schema ++ "]: " ++ e])
    ∧ (∀ (schema : GDocument) (e : String) (api : Bool),
        lib.parseSchema raw = Except.ok schema →
        lib.isValidHash (extractId schema) = true →
        lib.inputSchemaParse raw (extractId schema) = Except.error e →
        (parse lib raw name api).2 =
          .report ["InputSchema: " ++ name ++ "[" ++ extractId schema ++ "]: " ++ e]
        ∧ ∀ (rest : List (String × Except String String)),
            runSingle lib api ((name, Except.ok raw) :: rest) =
              (("Validating schema from " ++ name)
                 :: ("InputSchema: " ++ name ++ "[" ++ extractId schema ++ "]: " ++ e)
                 :: (runSingle lib api rest).1,
               (runSingle lib api rest).2)) := by
  refine ⟨?_, ?_, ?_, ?_⟩
  · cases hP : lib.parseSchema raw with
    | error e => simp [parse, hP]
    | ok schema =>
        cases hv : lib.isValidHash (extractId schema) with
        | false => simp [parse, hP, hv]
        | true =>
            cases hI : lib.inputSchemaParse raw (extractId schema) with
            | error e => simp [parse, hP, hv, hI]
            | ok isch => simp [parse, hP, hv, hI]
  · intro api hmem
    cases hP : lib.parseSchema raw with
    | error e => simp [parse, hP] at hmem
    | ok schema =>
        cases hv : lib.isValidHash (extractId schema) with
        | false => simp [parse, hP, hv] at hmem
        | true =>
            cases hI : lib.inputSchemaParse raw (extractId schema) with
            | error e => simp [parse, hP, hv, hI] at hmem
            | ok isch =>
                cases api with
                | false => simp [parse, hP, hv, hI] at hmem
                | true =>
                    refine ⟨rfl, extractId schema, isch, hI, ?_⟩
                    cases hA : lib.apiSchema isch with
                    | error e => simp [parse, hP, hv, hI, hA]
                    | ok u => simp [parse, hP, hv, hI, hA]
  · intro schema isch e hP hv hI hA
    simp [parse, hP, hv, hI, hA]
  · intro schema e api hP hv hI
    constructor
    · simp [parse, hP, hv, hI]
    · intro rest
      simp [runSingle, runSingleFile, parse, hP, hv, hI]

/-- C7 witness: a run with derivation requested in which `InputSchema`
succeeds and derivation fails with a naming collision; the failure is
reported as an `ApiSchema` failure for the same label and identifier, and
with derivation not requested no `apiCall` is made. -/
theorem c7_witness :
    Stage.apiCall ∉ (parse apiFailLib "x" "f" false).1
    ∧ (parse apiFailLib "x" "f" true).2 =
        .report ["ApiSchema: f[unknown]: naming collision"] := by
  have h := c7_api_after_input apiFailLib "x" "f"
  have h3 := h.2.2.1 ⟨[]⟩ () "naming collision" (by decide) (by decide)
    (by decide) (by decide)
  exact ⟨h.1, h3.trans (by decide)⟩

/-- C8: the derivation flag does not influence the `InputSchema` stage: for
every schema text the runs with and without derivation requested make the
same library calls apart from the derivation call itself (first conjunct),
abort identically (second conjunct), and fail `InputSchema` validation with
the same reported error line in one run exactly when they do in the other
(third conjunct). -/
theorem c8_api_flag_independent {IS : Type} (lib : Lib IS) (raw name : String) :
    ((parse lib raw name true).1.filter
        (fun s => match s with | Stage.apiCall => false | _ => true) =
      (parse lib raw name false).1.filter
        (fun s => match s with | Stage.apiCall => false | _ => true))
    ∧ (∀ m, (parse lib raw name true).2 = .abort m ↔
        (parse lib raw name false).2 = .abort m)
    ∧ (∀ id e, lib.inputSchemaParse raw id = Except.error e →
        Stage.inputCall id ∈ (parse lib raw name true).1 →
        (parse lib raw name true).2 =
          .report ["InputSchema: " ++ name ++ "[" ++ id ++ "]: " ++ e]
        ∧ (parse lib raw name false).2 =
          .report ["InputSchema: " ++ name ++ "[" ++ id ++ "]: " ++ e]) := by
  cases hP : lib.parseSchema raw with
  | error e =>
      refine ⟨by simp [parse, hP], by simp [parse, hP], ?_⟩
      intro id e' _ hmem
      simp [parse, hP] at hmem
  | ok schema =>
      cases hv : lib.isValidHash (extractId schema) with
      | false =>
          refine ⟨by simp [parse, hP, hv], by simp [parse, hP, hv], ?_⟩
          intro id e' _ hmem
          simp [parse, hP, hv] at hmem
      | true =>
          cases hI : lib.inputSchemaParse raw (extractId schema) with
          | error e =>
              refine ⟨by simp [parse, hP, hv, hI], by simp [parse, hP, hv, hI], ?_⟩
              intro id e' hId hmem
              have hid : id = extractId schema := by
                simp [parse, hP, hv, hI] at hmem
                exact hmem
              subst hid
              rw [hId] at hI
              cases hI
              exact ⟨by simp [parse, hP, hv, hId], by simp [parse, hP, hv, hId]⟩
          | ok isch =>
              refine ⟨?_, ?_, ?_⟩
              · cases hA : lib.apiSchema isch with
                | error e => simp [parse, hP, hv, hI, hA, List.filter]
                | ok u => simp [parse, hP, hv, hI, hA, List.filter]
              · intro m
                cases hA : lib.apiSchema isch with
                | error e => simp [parse, hP, hv, hI, hA]
                | ok u => simp [parse, hP, hv, hI, hA]
              · intro id e' hId hmem
                have hid : id = extractId schema := by
                  cases hA : lib.apiSchema isch with
                  | error e => simp [parse, hP, hv, hI, hA] at hmem; exact hmem
                  | ok u => simp [parse, hP, hv, hI, hA] at hmem; exact hmem
                subst hid
                rw [hId] at hI
                cases hI

/-- C8 witness: under collaborators whose `InputSchema` validation fails,
the runs with and without derivation requested report the identical
`InputSchema` failure line. -/
theorem c8_witness :
    (parse inputFailLib "x" "f" true).2 =
      .report ["InputSchema: " ++ "f" ++ "[" ++ "unknown" ++ "]: " ++ "bad type"]
    ∧ (parse inputFailLib "x" "f" false).2 =
      .report ["InputSchema: " ++ "f" ++ "[" ++ "unknown" ++ "]: " ++ "bad type"] := by
  exact (c8_api_flag_independent inputFailLib "x" "f").2.2 "unknown" "bad type"
    (by decide) (by decide)

/-- C9: every report line of a pipeline run carries the externally supplied
label (which is independent of the schema content and of the library
behavior) together with the extracted identifier in brackets (first
conjunct); in bulk mode the label passed to the pipeline is `sgd{id}`,
derived solely from the record's integer identifier (second conjunct); in
single mode the label is the input path itself (third conjunct). -/
theorem c9_label_and_identifier {IS : Type} (lib : Lib IS) :
    (∀ (raw name : String) (api : Bool) (l : String),
        l ∈ ((parse lib raw name api).2).lines →
        ∃ id rest, Stage.hashCall id ∈ (parse lib raw name api).1
          ∧ (l = "InputSchema: " ++ name ++ "[" ++ id ++ "]: " ++ rest
             ∨ l = "ApiSchema: " ++ name ++ "[" ++ id ++ "]: " ++ rest
             ∨ l = "Schema " ++ name ++ "[" ++ id ++ "]: OK"))
    ∧ (∀ (api : Bool) (line : String) (entry : Entry),
        parseEntry (unescapeLine line) = some entry →
        processLine lib api line =
          match (parse lib entry.schema ("sgd" ++ toString entry.id) api).2 with
          | .report ls => Except.ok ls
          | .abort m => Except.error m)
    ∧ (∀ (api : Bool) (path raw : String),
        runSingleFile lib api path (Except.ok raw) =
          match (parse lib raw path api).2 with
          | .report ls => (("Validating schema from " ++ path) :: ls, none)
          | .abort m => (["Validating schema from " ++ path], some m)) := by
  refine ⟨?_, ?_, ?_⟩
  · intro raw name api l hl
    cases hP : lib.parseSchema raw with
    | error e => simp [parse, hP, StepResult.lines] at hl
    | ok schema =>
        cases hv : lib.isValidHash (extractId schema) with
        | false => simp [parse, hP, hv, StepResult.lines] at hl
        | true =>
            cases hI : lib.inputSchemaParse raw (extractId schema) with
            | error e =>
                simp [parse, hP, hv, hI, StepResult.lines] at hl
                exact ⟨extractId schema, e, by simp [parse, hP, hv, hI],
                  Or.inl hl⟩
            | ok isch =>
                cases api with
                | false =>
                    simp [parse, hP, hv, hI, StepResult.lines] at hl
                    exact ⟨extractId schema, "", by simp [parse, hP, hv, hI],
                      Or.inr (Or.inr hl)⟩
                | true =>
                    cases hA : lib.apiSchema isch with
                    | error e =>
                        simp [parse, hP, hv, hI, hA, StepResult.lines] at hl
                        exact ⟨extractId schema, e,
                          by simp [parse, hP, hv, hI, hA], Or.inr (Or.inl hl)⟩
                    | ok u =>
                        simp [parse, hP, hv, hI, hA, StepResult.lines] at hl
                        exact ⟨extractId schema, "",
                          by simp [parse, hP, hv, hI, hA], Or.inr (Or.inr hl)⟩
  · intro api line entry hp
    simp [processLine, hp]
  · intro api path raw
    rfl

/-- C9 witness: the bulk label for the record with identifier 1 is `sgd1`,
and the single-mode label is the path itself. -/
theorem c9_witness :
    processLine modelLib false wellFormedRecord =
      (match (parse modelLib "type T \x7b \x7d"
          ("sgd" ++ toString (1 : Int)) false).2 with
       | .report ls => Except.ok ls
       | .abort m => Except.error m)
    ∧ runSingleFile modelLib false "a.graphql" (Except.ok "") =
      (match (parse modelLib "" "a.graphql" false).2 with
       | .report ls => (("Validating schema from " ++ "a.graphql") :: ls, none)
       | .abort m => (["Validating schema from " ++ "a.graphql"], some m)) := by
  exact ⟨(c9_label_and_identifier modelLib).2.1 false wellFormedRecord
      ⟨1, "type T \x7b \x7d"⟩ (by decide),
    (c9_label_and_identifier modelLib).2.2 false "a.graphql" ""⟩

/-- C10: in bulk mode the backslash collapsing is applied to the entire raw
input line before the line is decoded as a record (first conjunct: the
record decoder only ever sees the un-escaped line); consequently a record
whose JSON encoding legitimately contains a double-backslash escape has
that field's decoded content altered: `legitimateEscapeLine` decodes to the
schema field `a\b` (a literal backslash) as written, but the pipeline's
un-escaping turns the line's escape into a bare `\b`, which decodes to a
backspace character instead. -/
theorem c10_line_unescaped_before_decode :
    (∀ {IS : Type} (lib : Lib IS) (api : Bool) (line : String),
        processLine lib api line =
          match parseEntry (unescapeLine line) with
          | none => Except.error "line is valid json"
          | some entry =>
              match (parse lib entry.schema ("sgd" ++ toString entry.id) api).2 with
              | .report ls => Except.ok ls
              | .abort m => Except.error m)
    ∧ parseEntry legitimateEscapeLine = some ⟨1, String.mk ['a', '\\', 'b']⟩
    ∧ parseEntry (unescapeLine legitimateEscapeLine) =
        some ⟨1, String.mk ['a', Char.ofNat 8]⟩
    ∧ String.mk ['a', '\\', 'b'] ≠ String.mk ['a', Char.ofNat 8] := by
  exact ⟨by intros; rfl, by decide, by decide, by decide⟩

end Validate
